import Mathlib

/-
  Shallow embedding of the Minecraft-Agent core (src/index.js):
  configuration constants, JSON action schema validation, the action
  executor (doAction) with its in-flight execution state, the behavioral
  intelligence memory (updateActionMemory / detectStuckBehavior /
  getIntelligentOverride), the goal scheduler (Goal / GoalSelector), and
  the decision cycle (executeLLMDecision).

  Machine integers of the source are JavaScript numbers; all quantities
  used by the verified claims are integral (timestamps, counts, block
  coordinates), so they are modelled as Nat / Int.  World interaction
  (mineflayer bot calls, pathfinder, HTTP) is passed in as explicit
  parameters: block lookups as a function from coordinates to an optional
  block name, actuator outcomes as an explicit result value, and the
  randomized trigonometric relocation target of the override as an explicit
  integer offset pair (the floating-point cos/sin arithmetic itself is not
  modelled; no claim depends on the numeric target).
-/

namespace MCAgent

/-! Configuration constants, literal values from CONFIG (src/index.js). -/

/-- CONFIG.goalSystem.goalPersistence (ms). -/
def cfgGoalPersistence : Nat := 30000

/-- CONFIG.goalSystem.tickInterval (ms). -/
def cfgTickInterval : Nat := 100

/-- CONFIG.goalSystem.maxActiveGoals. -/
def cfgMaxActiveGoals : Nat := 3

/-- CONFIG.intelligence.stuckDetectionThreshold. -/
def cfgStuckThreshold : Nat := 3

/-- CONFIG.intelligence.memoryDepth. -/
def cfgMemoryDepth : Nat := 50

/-- CONFIG.intelligence.behavioralOverrides. -/
def cfgBehavioralOverrides : Bool := true

/-- CONFIG.intelligence.proactiveActions. -/
def cfgProactiveActions : Bool := true

/-- CONFIG.intelligence.proximityMiningDistance. -/
def cfgProximityMiningDistance : Int := 3

/-- CONFIG.intelligence.explorationDistance. -/
def cfgExplorationDistance : Int := 30

/-- CONFIG.actionSync.enabled. -/
def cfgActionSyncEnabled : Bool := true

/-- CONFIG.actionHistory.maxHistory. -/
def cfgMaxHistory : Nat := 15

/-- CONFIG.autoMode.maxActions. -/
def cfgMaxAutoActions : Nat := 1000

/-! JSON values and the action schema (ACTION_JSON_SCHEMA, src/index.js
    lines 3161-3172).  JSON numbers appearing in the verified claims are
    integers, so numbers are modelled as Int. -/

/-- A JSON value (integers only for numbers). -/
inductive JVal where
  | null : JVal
  | bool : Bool → JVal
  | num : Int → JVal
  | str : String → JVal
  | arr : List JVal → JVal
  | obj : List (String × JVal) → JVal

/-- Property lookup on a JSON object (parsed objects have unique keys). -/
def lookupField : List (String × JVal) → String → Option JVal
  | [], _ => none
  | (k, v) :: rest, key => if k == key then some v else lookupField rest key

/-- The fixed enumeration of action kinds from the schema. -/
def actionKinds : List String :=
  ["MOVE", "LOOK_AT", "GOTO", "MINE_AT", "MINE_TREE", "PLACE_AT",
   "ATTACK_NEAREST", "SELECT_HOTBAR", "EAT", "CRAFT"]

/-- True when the optional value is a JSON number (typeof v === number). -/
def isJNum : Option JVal → Bool
  | some (.num _) => true
  | _ => false

/-- ajv validation of ACTION_JSON_SCHEMA: the input must be an object,
    must contain "action" drawn from the kind enumeration, may contain no
    properties other than action / horizon_ms / args, horizon_ms when
    present must be an integer in [100, 5000], and args when present must
    be an object (with arbitrary contents). -/
def validateAction (v : JVal) : Bool :=
  match v with
  | .obj fields =>
      (match lookupField fields "action" with
       | some (.str a) => actionKinds.contains a
       | _ => false)
      && fields.all (fun kv =>
           kv.1 == "action" || kv.1 == "horizon_ms" || kv.1 == "args")
      && (match lookupField fields "horizon_ms" with
          | none => true
          | some (.num n) => decide (100 ≤ n) && decide (n ≤ 5000)
          | some _ => false)
      && (match lookupField fields "args" with
          | none => true
          | some (.obj _) => true
          | some _ => false)
  | _ => false

/-! The action executor (doAction, src/index.js lines 3174-3710) and its
    process-wide in-flight state (currentAction / actionStartTime,
    lines 1001-1002) and action history (lines 1252-1277). -/

/-- An action request as destructured by doAction:
    \x7baction, args = \x7b\x7d, horizon_ms = 400\x7d. -/
structure ActionReq where
  action : String
  args : List (String × JVal)
  horizon_ms : Option Int

/-- Terminal result of one doAction call: the source either returns
    normally or throws an Error with a message. -/
inductive ActResult where
  | completed : ActResult
  | failed : String → ActResult
deriving DecidableEq

/-- A HistoryEntry pushed by addToActionHistory. -/
structure HistoryEntry where
  action : ActionReq
  result : String
  error : Option String
  actionNumber : Nat
  duration : Nat

/-- The executor's global mutable state: the in-flight action reference,
    its start timestamp, and the bounded action history. -/
structure ExecState where
  currentAction : Option ActionReq
  actionStartTime : Option Nat
  actionHistory : List HistoryEntry

/-- Initial executor state (currentAction = null, actionStartTime = null,
    actionHistory = []). -/
def ExecState.init : ExecState :=
  { currentAction := none, actionStartTime := none, actionHistory := [] }

/-- isActionInProgress (src/index.js 1313-1315): currentAction !== null. -/
def isActionInProgress (s : ExecState) : Bool :=
  s.currentAction.isSome

/-- addToActionHistory (src/index.js 1252-1277): push an entry, computing
    duration from the still-set global actionStartTime, then evict the
    oldest entry beyond CONFIG.actionHistory.maxHistory. -/
def addToActionHistory (now : Nat) (a : ActionReq) (result : String)
    (err : Option String) (s : ExecState) : ExecState :=
  let entry : HistoryEntry :=
    { action := a, result := result, error := err,
      actionNumber := s.actionHistory.length + 1,
      duration := match s.actionStartTime with
                  | some t => now - t
                  | none => 0 }
  let h := s.actionHistory ++ [entry]
  { s with actionHistory := if h.length > cfgMaxHistory then h.drop 1 else h }

/-- The clamp helper inside doAction. -/
def clampI (n lo hi : Int) : Int := max lo (min hi n)

/-- horizon_ms || 400: an absent or zero horizon defaults to 400. -/
def horizonOr400 : Option Int → Int
  | none => 400
  | some n => if n == 0 then 400 else n

/-- True when args[k] is a JSON number (typeof args.k === number). -/
def numArg (args : List (String × JVal)) (k : String) : Bool :=
  isJNum (lookupField args k)

/-- The synchronous argument checks at the head of each action-kind case
    of doAction's switch: the coordinate checks of LOOK_AT / GOTO /
    MINE_AT / MINE_TREE / PLACE_AT, the slot range check of SELECT_HOTBAR,
    and the default branch's unknown-action throw.  Returns the thrown
    message, or none when the handler proceeds to its world interaction. -/
def kindPrecheck (action : String) (args : List (String × JVal)) :
    Option String :=
  if action == "LOOK_AT" then
    if numArg args "x" && numArg args "y" && numArg args "z" then none
    else some "LOOK_AT requires numeric x,y,z"
  else if action == "GOTO" then
    if numArg args "x" && numArg args "y" && numArg args "z" then none
    else some "GOTO requires x,y,z"
  else if action == "MINE_AT" then
    if numArg args "x" && numArg args "y" && numArg args "z" then none
    else some "MINE_AT requires x,y,z"
  else if action == "MINE_TREE" then
    if numArg args "x" && numArg args "y" && numArg args "z" then none
    else some "MINE_TREE requires x,y,z"
  else if action == "PLACE_AT" then
    if numArg args "x" && numArg args "y" && numArg args "z" then none
    else some "PLACE_AT requires x,y,z"
  else if action == "SELECT_HOTBAR" then
    match lookupField args "slot" with
    | some (.num n) => if n < 0 || n > 8 then some "slot must be 0..8" else none
    | _ => none
  else if actionKinds.contains action then none
  else some ("Unknown action: " ++ action)

/-- doAction (src/index.js 3174-3710).  The handler's world interaction
    (pathfinder, digging, eating, crafting and their awaited completion or
    failure) is abstracted by handlerResult, the outcome the dispatched
    handler produces once the synchronous argument checks pass.  The
    function marks the in-flight state occupied, dispatches, then on both
    the success path and the catch path appends a HistoryEntry and clears
    currentAction and actionStartTime unconditionally before returning
    (the catch rethrows, reflected in the returned ActResult). -/
def doAction (now : Nat) (a : ActionReq) (handlerResult : ActResult)
    (s : ExecState) : ActResult × ExecState :=
  let h := clampI (horizonOr400 a.horizon_ms) 100 5000
  let a' : ActionReq := { a with horizon_ms := some h }
  let s1 : ExecState :=
    { s with currentAction := some a', actionStartTime := some now }
  let res : ActResult :=
    match kindPrecheck a'.action a'.args with
    | some msg => .failed msg
    | none => handlerResult
  match res with
  | .completed =>
      let s2 := addToActionHistory now a' "completed" none s1
      (.completed,
       { s2 with currentAction := none, actionStartTime := none })
  | .failed msg =>
      let s2 := addToActionHistory now a' "failed" (some msg) s1
      (.failed msg,
       { s2 with currentAction := none, actionStartTime := none })

/-- The sample schema-valid input of claim C10:
    the JSON object with action GOTO and args an empty object. -/
def gotoEmptyArgs : JVal :=
  .obj [("action", .str "GOTO"), ("args", .obj [])]

/-- The action request doAction receives for gotoEmptyArgs. -/
def gotoEmptyReq : ActionReq :=
  { action := "GOTO", args := [], horizon_ms := none }

/-! Behavioral intelligence (botIntelligence, src/index.js 1004-1022, and
    updateActionMemory / detectStuckBehavior / getIntelligentOverride,
    lines 1396-1558). -/

/-- An integer block position. -/
structure Pos where
  x : Int
  y : Int
  z : Int
deriving DecidableEq

/-- One entry of botIntelligence.actionMemory. -/
structure MemEntry where
  key : String
  timestamp : Nat
  action : ActionReq

/-- The botIntelligence global: the action memory ring, the
    signature-to-consecutive-count map (a JavaScript object, modelled as
    an association list with unique keys), the position ring, the last
    decision, and the contextState / behaviorFlags fields used by the
    verified claims. -/
structure IntelState where
  actionMemory : List MemEntry
  consecutiveActions : List (String × Nat)
  lastPositions : List (Pos × Nat)
  lastLLMDecision : Option ActionReq
  stuckCount : Nat
  lastOverrideTime : Nat
  isStuckFlag : Bool
  shouldOverride : Bool
  isExploring : Bool

/-- The initial botIntelligence state. -/
def IntelState.init : IntelState :=
  { actionMemory := [], consecutiveActions := [], lastPositions := [],
    lastLLMDecision := none, stuckCount := 0, lastOverrideTime := 0,
    isStuckFlag := false, shouldOverride := false, isExploring := false }

/-- The action signature computed by updateActionMemory (line 1397):
    a template of action.type and JSON.stringify(action.parameters || \x7b\x7d).
    Both call sites (lines 3888 and 3977) pass objects of shape
    \x7baction, args, horizon_ms\x7d, which have neither a type nor a
    parameters field, so action.type is undefined and
    action.parameters || \x7b\x7d is the empty object: the computed key is
    the constant string "undefined_\x7b\x7d" for every recorded action. -/
def actionKeyOf (_a : ActionReq) : String := "undefined_\x7b\x7d"

/-- Modelled from the spec: the signature the specification describes
    (glossary entry Signature: a canonical key of kind and normalized
    parameters); used only to compare the source's collapsed key against
    the intended one. -/
def specSignature (a : ActionReq) : String × List (String × JVal) :=
  (a.action, a.args)

/-- Read a count from the consecutiveActions map (absent key reads 0). -/
def getCount (m : List (String × Nat)) (k : String) : Nat :=
  match m.find? (fun kv => kv.1 == k) with
  | some kv => kv.2
  | none => 0

/-- Write a count into the consecutiveActions map: update the existing
    key, or add the property when absent (JavaScript object assignment). -/
def setCount (m : List (String × Nat)) (k : String) (v : Nat) :
    List (String × Nat) :=
  match m with
  | [] => [(k, v)]
  | kv :: rest =>
      if kv.1 == k then (k, v) :: rest else kv :: setCount rest k v

/-- updateActionMemory (src/index.js 1396-1418): push the signature into
    the memory ring (capped at memoryDepth), increment the signature's
    consecutive count, and zero the counts of all other signatures. -/
def updateActionMemory (now : Nat) (a : ActionReq) (s : IntelState) :
    IntelState :=
  let key := actionKeyOf a
  let mem := s.actionMemory ++ [{ key := key, timestamp := now, action := a }]
  let mem := if mem.length > cfgMemoryDepth then mem.drop 1 else mem
  let counts := setCount s.consecutiveActions key
    (getCount s.consecutiveActions key + 1)
  let counts := counts.map (fun kv => if kv.1 == key then kv else (kv.1, 0))
  { s with actionMemory := mem, consecutiveActions := counts }

/-- detectStuckBehavior (src/index.js 1421-1439): false when behavioral
    overrides are disabled or fewer than the threshold of actions are
    recorded; otherwise true exactly when the last threshold-many recorded
    keys are all equal, in which case the stuck flag is set and the stuck
    counter incremented. -/
def detectStuckBehavior (s : IntelState) : Bool × IntelState :=
  if !cfgBehavioralOverrides then (false, s)
  else
    let recent := s.actionMemory.drop (s.actionMemory.length - cfgStuckThreshold)
    if recent.length < cfgStuckThreshold then (false, s)
    else
      let keys := recent.map (fun e => e.key)
      let allSame := keys.all (fun k => k == keys.headD "")
      if allSame then
        (true, { s with isStuckFlag := true, stuckCount := s.stuckCount + 1 })
      else (false, s)

/-- The first characters of a list match the pattern. -/
def startsWithChars : List Char → List Char → Bool
  | _, [] => true
  | [], _ :: _ => false
  | c :: cs, p :: ps => c == p && startsWithChars cs ps

/-- The pattern occurs as a contiguous segment of the list. -/
def hasSegChars (pat : List Char) : List Char → Bool
  | [] => pat.isEmpty
  | c :: cs => startsWithChars (c :: cs) pat || hasSegChars pat cs

/-- JavaScript String.prototype.includes. -/
def strIncludes (s pat : String) : Bool :=
  hasSegChars pat.data s.data

/-- JavaScript String.prototype.toLowerCase (block names are ASCII). -/
def lowerStr (s : String) : String :=
  { data := s.data.map Char.toLower }

/-- JavaScript String.prototype.endsWith. -/
def strEndsWith (s pat : String) : Bool :=
  startsWithChars s.data.reverse pat.data.reverse

/-- The global isTreeBlock (src/index.js 2453-2457) applied to a block
    name: the lowercased name contains log or wood or ends with _log. -/
def isTreeBlockName (name : String) : Bool :=
  let n := lowerStr name
  strIncludes n "log" || strIncludes n "wood" || strEndsWith n "_log"

/-- The integer interval [lo, hi] as a list (a JavaScript for-loop from
    lo to hi inclusive). -/
def intRange (lo hi : Int) : List Int :=
  (List.range (hi - lo + 1).toNat).map (fun i => lo + (i : Int))

/-- The nearby-tree scan of getIntelligentOverride (src/index.js
    1489-1502): the cube of radius proximityMiningDistance around the
    current position (y restricted to [-2, 2]), in loop order x, y, z,
    keeping the positions whose block exists and is a tree block.
    blockAt gives the block name at a coordinate, none for a null block. -/
def scanTreeBlocks (pos : Pos)
    (blockAt : Int → Int → Int → Option String) : List Pos :=
  (intRange (-cfgProximityMiningDistance) cfgProximityMiningDistance).flatMap
    (fun dx =>
      (intRange (-2) 2).flatMap (fun dy =>
        (intRange (-cfgProximityMiningDistance) cfgProximityMiningDistance).filterMap
          (fun dz =>
            match blockAt (pos.x + dx) (pos.y + dy) (pos.z + dz) with
            | some name => if isTreeBlockName name then
                some { x := pos.x + dx, y := pos.y + dy, z := pos.z + dz }
              else none
            | none => none)))

/-- Zero every consecutive count (the reset loop each override branch
    runs, e.g. src/index.js 1472-1474). -/
def resetCounts (m : List (String × Nat)) : List (String × Nat) :=
  m.map (fun kv => (kv.1, 0))

/-- The GOTO relocation action the failure-loop and exploration branches
    build (radius 3, horizon 1200). -/
def relocGoto (x y z : Int) : ActionReq :=
  { action := "GOTO",
    args := [("x", .num x), ("y", .num y), ("z", .num z),
             ("radius", .num 3)],
    horizon_ms := some 1200 }

/-- getIntelligentOverride (src/index.js 1442-1558).  Returns null unless
    behavioral overrides are enabled and the stuck flag is set.  Branch 1:
    at least 3 of the last 5 memory entries are MINE_TREE / MINE_AT within
    the last minute, return a randomized GOTO relocation.  Branch 2: a tree
    block within the proximity radius, return MINE_TREE on the first one
    found.  Branch 3 (proactiveActions): a randomized GOTO relocation.
    Every returning branch sets shouldOverride, records the override time,
    clears the stuck flag and zeroes every consecutive count.  reloc is
    the randomized integer relocation offset (the rounded
    cos/sin * explorationDistance pair). -/
def getIntelligentOverride (now : Nat) (pos : Pos)
    (blockAt : Int → Int → Int → Option String) (reloc : Int × Int)
    (s : IntelState) : Option ActionReq × IntelState :=
  if !cfgBehavioralOverrides || !s.isStuckFlag then (none, s)
  else
    let recent := s.actionMemory.drop (s.actionMemory.length - 5)
    let miningRecent := recent.filter (fun e =>
      (e.action.action == "MINE_TREE" || e.action.action == "MINE_AT")
      && decide (now - e.timestamp < 60000))
    if 3 ≤ miningRecent.length then
      let s' := { s with
        shouldOverride := true, isExploring := true,
        lastOverrideTime := now, isStuckFlag := false,
        consecutiveActions := resetCounts s.consecutiveActions }
      (some (relocGoto (pos.x + reloc.1) pos.y (pos.z + reloc.2)), s')
    else
      match scanTreeBlocks pos blockAt with
      | t :: _ =>
          let s' := { s with
            shouldOverride := true,
            lastOverrideTime := now, isStuckFlag := false,
            consecutiveActions := resetCounts s.consecutiveActions }
          (some { action := "MINE_TREE",
                  args := [("x", .num t.x), ("y", .num t.y), ("z", .num t.z)],
                  horizon_ms := some 10000 }, s')
      | [] =>
          if cfgProactiveActions then
            let s' := { s with
              shouldOverride := true, isExploring := true,
              lastOverrideTime := now, isStuckFlag := false,
              consecutiveActions := resetCounts s.consecutiveActions }
            (some (relocGoto (pos.x + reloc.1) pos.y (pos.z + reloc.2)), s')
          else (none, s)

/-- updatePositionTracking (src/index.js 1561-1572): push the current
    position with a timestamp, keeping at most 10. -/
def updatePositionTracking (now : Nat) (pos : Pos) (s : IntelState) :
    IntelState :=
  let ps := s.lastPositions ++ [(pos, now)]
  { s with lastPositions := if ps.length > 10 then ps.drop 1 else ps }

/-! The goal system (class Goal, src/index.js 1025-1079, and class
    GoalSelector, lines 1081-1247).  A Goal is a JavaScript object with
    mutable fields and subclass-overridden methods; it is modelled as a
    record of data fields plus a record of behavior functions (canUse,
    canContinue, getDynamicPriority and the whole subclass tick body),
    parameterized over an environment type Env standing for the world and
    sensor data the behaviors read.  JavaScript reference identity, which
    the selector's activeGoals list and includes() rely on, is modelled by
    a numeric id carried in the data; the selector's active set is the
    list of ids, every field read going through the registry. -/

/-- The mutable own fields of a Goal instance used by the claims. -/
structure GoalData where
  id : Nat
  name : String
  priority : Int
  isActive : Bool
  startTime : Option Nat
  lastTickTime : Option Nat

/-- The behavior of a Goal subclass.  tickRun is the subclass tick body:
    it returns the updated goal fields (a tick may mutate the goal,
    including calling this.stop()) together with an optional thrown error
    message (JavaScript state mutated before a throw persists). -/
structure GoalBehavior (Env : Type) where
  canUse : GoalData → Env → Bool
  canContinue : GoalData → Env → Bool
  dynPriority : GoalData → Env → Int
  tickRun : GoalData → Env → GoalData × Option String

/-- A Goal instance: data plus behavior. -/
structure Goal (Env : Type) where
  data : GoalData
  beh : GoalBehavior Env

/-- The Goal constructor (src/index.js 1026-1036): inactive, no start
    timestamp, no last tick. -/
def mkGoal (Env : Type) (id : Nat) (name : String) (priority : Int)
    (beh : GoalBehavior Env) : Goal Env :=
  { data := { id := id, name := name, priority := priority,
              isActive := false, startTime := none, lastTickTime := none },
    beh := beh }

/-- Goal.start (src/index.js 1049-1053): isActive := true, startTime :=
    Date.now(). -/
def Goal.start (now : Nat) (g : Goal Env) : Goal Env :=
  { g with data := { g.data with isActive := true, startTime := some now } }

/-- Goal.stop (src/index.js 1056-1060): isActive := false, startTime :=
    null. -/
def Goal.stop (g : Goal Env) : Goal Env :=
  { g with data := { g.data with isActive := false, startTime := none } }

/-- Goal.hasTimedOut (src/index.js 1075-1078): false when startTime is
    null, otherwise now minus startTime exceeds goalPersistence. -/
def GoalData.hasTimedOut (now : Nat) (d : GoalData) : Bool :=
  match d.startTime with
  | none => false
  | some t => decide (now - t > cfgGoalPersistence)

/-- The GoalSelector state: the goal registry, the active subset (ids,
    standing for the object references of activeGoals), and the last tick
    timestamp.  Sensor data is the Env value handed to each tick. -/
structure Selector (Env : Type) where
  goals : List (Goal Env)
  active : List Nat
  lastTickTime : Nat

/-- Look a goal up by identity in the registry (the first goal with the
    given identity, i.e. the reference the active list holds). -/
def findGoal : List (Goal Env) → Nat → Option (Goal Env)
  | [], _ => none
  | g :: rest, id => if g.data.id == id then some g else findGoal rest id

/-- Mutate the goal with the given identity in place. -/
def updateGoal (gs : List (Goal Env)) (id : Nat) (f : Goal Env → Goal Env) :
    List (Goal Env) :=
  gs.map (fun g => if g.data.id == id then f g else g)

/-- The removal pass of GoalSelector.tick (src/index.js 1211-1218):
    activeGoals.filter keeping goals that have neither timed out nor
    failed their continuation check; each removed goal is stopped (a side
    effect on the shared goal object, here the registry). -/
def removeFinished (now : Nat) (env : Env) (gs : List (Goal Env)) :
    List Nat → List (Goal Env) × List Nat
  | [] => (gs, [])
  | id :: rest =>
      let keep :=
        match findGoal gs id with
        | some g => !(g.data.hasTimedOut now) && g.beh.canContinue g.data env
        | none => true
      if keep then
        ((removeFinished now env gs rest).1,
         id :: (removeFinished now env gs rest).2)
      else
        removeFinished now env (updateGoal gs id Goal.stop) rest

/-- Stable insertion of a goal into a list sorted by descending dynamic
    priority (the ECMAScript sort with comparator
    (a, b) => b.getDynamicPriority() - a.getDynamicPriority() is stable). -/
def insertByPriority (env : Env) (g : Goal Env) :
    List (Goal Env) → List (Goal Env)
  | [] => [g]
  | h :: t =>
      if g.beh.dynPriority g.data env > h.beh.dynPriority h.data env then
        g :: h :: t
      else h :: insertByPriority env g t

/-- Stable sort by descending dynamic priority. -/
def sortByPriority (env : Env) : List (Goal Env) → List (Goal Env)
  | [] => []
  | g :: rest => insertByPriority env g (sortByPriority env rest)

/-- The tick pass of GoalSelector.tick (src/index.js 1236):
    activeGoals.forEach(goal => goal.tick()).  Each tick body may mutate
    its goal; a thrown exception aborts the iteration and propagates (the
    identity of a goal object cannot change, so the id is preserved). -/
def tickGoals (env : Env) (gs : List (Goal Env)) :
    List Nat → List (Goal Env) × Option String
  | [] => (gs, none)
  | id :: rest =>
      match findGoal gs id with
      | none => tickGoals env gs rest
      | some g =>
          let r := g.beh.tickRun g.data env
          let gs' := updateGoal gs id
            (fun g0 => { g0 with data := { r.1 with id := g0.data.id } })
          match r.2 with
          | some msg => (gs', some msg)
          | none => tickGoals env gs' rest

/-- GoalSelector.tick (src/index.js 1203-1237): a no-op when less than
    the tick interval has elapsed; otherwise refresh sensors (the env
    argument), remove timed-out or non-continuing active goals, activate
    available goals (not active, canUse passes) in descending dynamic
    priority order while capacity remains, and tick every active goal.
    The returned Option String is an exception propagating out of the
    forEach over goal ticks (there is no catch in this method). -/
def Selector.tick (now : Nat) (env : Env) (s : Selector Env) :
    Selector Env × Option String :=
  if now - s.lastTickTime < cfgTickInterval then (s, none)
  else
    let p1 := removeFinished now env s.goals s.active
    let gs1 := p1.1
    let act1 := p1.2
    let available := gs1.filter
      (fun g => !(act1.contains g.data.id) && g.beh.canUse g.data env)
    let sorted := sortByPriority env available
    let toStart := sorted.take (cfgMaxActiveGoals - act1.length)
    let gs2 := toStart.foldl
      (fun acc g => updateGoal acc g.data.id (Goal.start now)) gs1
    let act2 := act1 ++ toStart.map (fun g => g.data.id)
    let p3 := tickGoals env gs2 act2
    ({ goals := p3.1, active := act2, lastTickTime := now }, p3.2)

/-- Construct the selector at init (new GoalSelector plus the addGoal
    registrations of setupGoalSystem): goals registered with distinct
    identities, empty active set, lastTickTime 0.  addGoal's sort of the
    registry by dynamic priority only permutes the registry list; the
    verified invariants are identity-based and registration-order
    independent, so registration order is kept as given. -/
def mkSelector (items : List (String × Int × GoalBehavior Env)) :
    Selector Env :=
  { goals := items.enum.map
      (fun p => mkGoal Env p.1 p.2.1 p.2.2.1 p.2.2.2),
    active := [], lastTickTime := 0 }

/-- Run a sequence of scheduler ticks (the goal ticker interval), each
    with its own timestamp and sensor environment. -/
def applyTicks : List (Nat × Env) → Selector Env → Selector Env
  | [], s => s
  | (n, e) :: rest, s => applyTicks rest (Selector.tick n e s).1

/-- The identities of the registered goals. -/
def idsOf (gs : List (Goal Env)) : List Nat :=
  gs.map (fun g => g.data.id)

/-- The scheduler invariant of claim C2: the active set never exceeds
    maxActiveGoals and every active goal is a registered goal. -/
def SelectorInv (s : Selector Env) : Prop :=
  s.active.length ≤ cfgMaxActiveGoals ∧
  ∀ id ∈ s.active, id ∈ idsOf s.goals

/-! MineTreeGoal.tick (src/index.js 1918-1940): the one goal tick with an
    internal try/catch.  The bot-facing inputs (distance to the target
    tree, and the outcome of the awaited mineTree call) are explicit
    parameters. -/

/-- The own fields of a MineTreeGoal instance. -/
structure MineTreeData where
  goal : GoalData
  targetTree : Option Pos
  pathStarted : Bool
  failureCount : Nat
  lastFailureTime : Nat

/-- MineTreeGoal.stop is Goal.stop plus clearing the pathfinder goal (an
    actuator call with no effect on the modelled fields). -/
def mineTreeStop (d : MineTreeData) : MineTreeData :=
  { d with goal := { d.goal with isActive := false, startTime := none } }

/-- MineTreeGoal.tick (src/index.js 1918-1940).  super.tick() records the
    last tick time when the goal is active; with no target tree the tick
    returns.  Within mining range (distance at most 4) the awaited
    mineTree call is wrapped in try/catch: success resets failureCount and
    stops the goal (completed), an error increments failureCount, records
    the failure time and stops the goal.  Out of range, pathToTree starts
    pathfinding inside its own try/catch.  No branch rethrows, so the
    second component (a propagating exception) is always none. -/
def mineTreeTick (now : Nat) (distToTarget : Int)
    (mineResult : ActResult) (d : MineTreeData) :
    MineTreeData × Option String :=
  let d1 := if d.goal.isActive then
      { d with goal := { d.goal with lastTickTime := some now } }
    else d
  match d.targetTree with
  | none => (d1, none)
  | some _ =>
      if distToTarget ≤ 4 then
        match mineResult with
        | .completed => (mineTreeStop { d1 with failureCount := 0 }, none)
        | .failed _ =>
            (mineTreeStop { d1 with
              failureCount := d1.failureCount + 1,
              lastFailureTime := now }, none)
      else
        if !d1.pathStarted then ({ d1 with pathStarted := true }, none)
        else (d1, none)

/-! The decision cycle (executeLLMDecision, src/index.js 3857-3994).
    External inputs are explicit: the logger's action count, the bot
    position, the world's block lookup, the override's randomized
    relocation offset, the policy source's proposal (none models an HTTP
    error, non-JSON text, absent JSON object, or unparseable JSON, all of
    which end the cycle), and the dispatched handler outcome. -/

/-- The combined mutable state the decision cycle touches. -/
structure SysState where
  exec : ExecState
  intel : IntelState

/-- The ActionReq doAction receives for a schema-validated proposal
    (the destructuring \x7baction, args = \x7b\x7d, horizon_ms = 400\x7d). -/
def actionOfJVal (v : JVal) : ActionReq :=
  match v with
  | .obj fields =>
      { action := match lookupField fields "action" with
                  | some (.str a) => a
                  | _ => "",
        args := match lookupField fields "args" with
                | some (.obj a) => a
                | _ => [],
        horizon_ms := match lookupField fields "horizon_ms" with
                      | some (.num n) => some n
                      | _ => none }
  | _ => { action := "", args := [], horizon_ms := none }

/-- executeLLMDecision (src/index.js 3857-3994).  Returns whether an
    action was executed, the final state, and the trace of in-flight
    currentAction values observed at the entry of each doAction call the
    cycle makes (used to state the single-flight property).  The cycle:
    stop at the action limit; skip when synchronization is enabled and an
    action is in flight; update position tracking; run stuck detection;
    when the intelligent override returns an action, record it and execute
    it; otherwise on a schema-valid policy proposal, record it and execute
    it; on a missing or invalid proposal, end the cycle with no action. -/
def executeLLMDecision (now : Nat) (actionCount : Nat) (pos : Pos)
    (blockAt : Int → Int → Int → Option String) (reloc : Int × Int)
    (llmProposal : Option JVal) (handlerResult : ActResult)
    (st : SysState) : Bool × SysState × List (Option ActionReq) :=
  if cfgMaxAutoActions ≤ actionCount then (false, st, [])
  else if cfgActionSyncEnabled && isActionInProgress st.exec then
    (false, st, [])
  else
    let intel := updatePositionTracking now pos st.intel
    let intel := (detectStuckBehavior intel).2
    let ovr := getIntelligentOverride now pos blockAt reloc intel
    match ovr.1 with
    | some a =>
        let intel := { updateActionMemory now a ovr.2 with
          lastLLMDecision := some a }
        let pre := st.exec.currentAction
        let exec := (doAction now a handlerResult st.exec).2
        (true, { exec := exec, intel := intel }, [pre])
    | none =>
        match llmProposal with
        | none => (false, { st with intel := ovr.2 }, [])
        | some v =>
            if validateAction v then
              let a := actionOfJVal v
              let intel := { updateActionMemory now a ovr.2 with
                lastLLMDecision := some a }
              let pre := st.exec.currentAction
              let exec := (doAction now a handlerResult st.exec).2
              (true, { exec := exec, intel := intel }, [pre])
            else (false, { st with intel := ovr.2 }, [])

/-! Concrete sample states used by the witnesses and counterexamples
    below (constructed with the model's own operations where relevant). -/

/-- The non-zero entries of the consecutive-count map. -/
def nonzeroKeys (m : List (String × Nat)) : List String :=
  (m.filter (fun kv => kv.2 != 0)).map Prod.fst

/-- A MINE_TREE request as the override layer builds it. -/
def mineTreeReq : ActionReq :=
  { action := "MINE_TREE",
    args := [("x", .num 0), ("y", .num 0), ("z", .num 0)],
    horizon_ms := some 10000 }

/-- A GOTO request as the policy source proposes it. -/
def gotoReq : ActionReq :=
  { action := "GOTO",
    args := [("x", .num 10), ("y", .num 64), ("z", .num 10)],
    horizon_ms := some 800 }

/-- An EAT request. -/
def eatReq : ActionReq :=
  { action := "EAT", args := [], horizon_ms := some 400 }

/-- A MINE_AT request. -/
def mineAtReq : ActionReq :=
  { action := "MINE_AT",
    args := [("x", .num 4), ("y", .num 5), ("z", .num 6)],
    horizon_ms := some 3000 }

/-- Behavioral memory after recording three MINE_TREE actions and running
    stuck detection (which fires, since three identical signatures are
    recorded, and sets the stuck flag). -/
def memAfterThreeMines : IntelState :=
  (detectStuckBehavior
    (updateActionMemory 2 mineTreeReq
      (updateActionMemory 1 mineTreeReq
        (updateActionMemory 0 mineTreeReq IntelState.init)))).2

/-- Behavioral memory after recording a GOTO, an EAT and a MINE_AT, three
    actions with pairwise different kinds. -/
def memAfterThreeDistinct : IntelState :=
  updateActionMemory 30 mineAtReq
    (updateActionMemory 20 eatReq
      (updateActionMemory 10 gotoReq IntelState.init))

/-- Behavioral memory after recording the same GOTO three times and
    running stuck detection (which fires and sets the stuck flag). -/
def memAfterThreeGotos : IntelState :=
  (detectStuckBehavior
    (updateActionMemory 2 gotoReq
      (updateActionMemory 1 gotoReq
        (updateActionMemory 0 gotoReq IntelState.init)))).2

/-- A world whose every block is stone: no tree anywhere. -/
def noTreeWorld : Int → Int → Int → Option String :=
  fun _ _ _ => some "stone"

/-- A recorded GOTO memory entry (the key is the collapsed constant the
    recorder computes). -/
def gotoMemEntry (ts : Nat) : MemEntry :=
  { key := "undefined_\x7b\x7d", timestamp := ts, action := gotoReq }

/-- A behavioral memory holding three identical recorded GOTO signatures
    (one signature, consecutive count 3), stuck flag not yet set. -/
def threeGotoState : IntelState :=
  { actionMemory := [gotoMemEntry 0, gotoMemEntry 1, gotoMemEntry 2],
    consecutiveActions := [("undefined_\x7b\x7d", 3)],
    lastPositions := [], lastLLMDecision := none, stuckCount := 0,
    lastOverrideTime := 0, isStuckFlag := false, shouldOverride := false,
    isExploring := false }

/-- The behavioral memory right after the override fires on
    memAfterThreeMines (the failure-loop branch). -/
def memAfterOverride : IntelState :=
  (getIntelligentOverride 1000 { x := 0, y := 0, z := 0 } noTreeWorld
    (7, 9) memAfterThreeMines).2

/-- A world with a single oak log adjacent to the origin. -/
def oneTreeWorld : Int → Int → Int → Option String :=
  fun x y z => if x == 1 && y == 64 && z == 0 then some "oak_log"
    else some "dirt"

/-- A system state with an action in flight (currentAction non-null). -/
def busySys : SysState :=
  { exec := { currentAction := some eatReq, actionStartTime := some 5,
              actionHistory := [] },
    intel := IntelState.init }

/-- A goal behavior (over a trivial environment) whose tick throws. -/
def throwingBeh : GoalBehavior Unit :=
  { canUse := fun _ _ => false,
    canContinue := fun _ _ => true,
    dynPriority := fun d _ => d.priority,
    tickRun := fun d _ => (d, some "boom") }

/-- A registered, active goal instance whose tick throws. -/
def throwingGoal : Goal Unit :=
  { data := { id := 0, name := "ThrowingGoal", priority := 1,
              isActive := true, startTime := some 50,
              lastTickTime := none },
    beh := throwingBeh }

/-- A selector with one registered, active goal whose tick throws. -/
def throwingSelector : Selector Unit :=
  { goals := [throwingGoal], active := [0], lastTickTime := 0 }

/-- A MineTreeGoal instance with an in-range target tree. -/
def sampleMineData : MineTreeData :=
  { goal := { id := 7, name := "MineTreeGoal", priority := 3,
              isActive := true, startTime := some 0,
              lastTickTime := none },
    targetTree := some { x := 1, y := 64, z := 0 },
    pathStarted := false, failureCount := 0, lastFailureTime := 0 }

/-- A goal behavior whose continuation check always passes and whose tick
    does nothing (used to witness the timeout cutoff). -/
def persistentBeh : GoalBehavior Unit :=
  { canUse := fun _ _ => false,
    canContinue := fun _ _ => true,
    dynPriority := fun d _ => d.priority,
    tickRun := fun d _ => (d, none) }

/-- A goal instance active since time 0 whose continuation check always
    passes. -/
def persistentGoal : Goal Unit :=
  { data := { id := 0, name := "PersistentGoal", priority := 1,
              isActive := true, startTime := some 0,
              lastTickTime := none },
    beh := persistentBeh }

/-- A selector with one registered goal, active since time 0. -/
def longRunningSelector : Selector Unit :=
  { goals := [persistentGoal], active := [0], lastTickTime := 0 }

/-! Theorems.  Helper lemmas first; the claim theorems follow. -/

/-- Every entry of a reset count map is zero. -/
theorem mem_resetCounts {m : List (String × Nat)} {kv : String × Nat}
    (h : kv ∈ resetCounts m) : kv.2 = 0 := by
  obtain ⟨x, _, hkv⟩ := List.mem_map.mp h
  rw [← hkv]

/-- Zeroing against a key absent from the map leaves no non-zero entry. -/
theorem filter_zeroed_of_not_mem {m : List (String × Nat)} {k : String}
    (h : k ∉ m.map Prod.fst) :
    (m.map (fun kv => if kv.1 == k then kv else (kv.1, 0))).filter
      (fun kv => kv.2 != 0) = [] := by
  induction m with
  | nil => rfl
  | cons kv rest ih =>
      have hk : kv.1 ≠ k := by
        intro he
        exact h (by simp [he])
      have hrest : k ∉ rest.map Prod.fst := by
        intro hm
        exact h (by simp [hm])
      have hbeq : (kv.1 == k) = false := beq_eq_false_iff_ne.mpr hk
      rw [List.map_cons, if_neg (by simp [hbeq]), List.filter_cons,
        if_neg (by simp)]
      exact ih hrest

/-- After setting a key to a non-zero value and zeroing every other key,
    that key's entry is the unique non-zero one (keys are unique, as in a
    JavaScript object). -/
theorem filter_setCount_zeroed {m : List (String × Nat)} {k : String}
    {v : Nat} (hv : v ≠ 0) (hnd : (m.map Prod.fst).Nodup) :
    ((setCount m k v).map
      (fun kv => if kv.1 == k then kv else (kv.1, 0))).filter
        (fun kv => kv.2 != 0) = [(k, v)] := by
  induction m with
  | nil => simp [setCount, hv]
  | cons kv rest ih =>
      rcases List.nodup_cons.mp hnd with ⟨hk1, hk2⟩
      by_cases hk : kv.1 = k
      · have hknotin : k ∉ rest.map Prod.fst := hk ▸ hk1
        have hsc : setCount (kv :: rest) k v = (k, v) :: rest := by
          simp [setCount, hk]
        rw [hsc, List.map_cons, if_pos (by simp), List.filter_cons,
          if_pos (by simpa using hv),
          filter_zeroed_of_not_mem hknotin]
      · have hbeq : (kv.1 == k) = false := beq_eq_false_iff_ne.mpr hk
        have hsc : setCount (kv :: rest) k v = kv :: setCount rest k v := by
          simp [setCount, hk]
        rw [hsc, List.map_cons, if_neg (by simp [hbeq]), List.filter_cons,
          if_neg (by simp)]
        exact ih hk2

/-- Membership of the stable priority insertion. -/
theorem mem_insertByPriority {env : Env} {g a : Goal Env}
    {l : List (Goal Env)} :
    a ∈ insertByPriority env g l ↔ a = g ∨ a ∈ l := by
  induction l with
  | nil => simp [insertByPriority]
  | cons h t ih =>
      simp only [insertByPriority]
      split
      · simp
      · simp only [List.mem_cons, ih]
        tauto

/-- Membership of the stable priority sort. -/
theorem mem_sortByPriority {env : Env} {a : Goal Env}
    {l : List (Goal Env)} :
    a ∈ sortByPriority env l ↔ a ∈ l := by
  induction l with
  | nil => simp [sortByPriority]
  | cons h t ih =>
      simp only [sortByPriority, mem_insertByPriority, ih, List.mem_cons]

/-- The head element produced by updateGoal keeps its identity when the
    update preserves identities. -/
theorem updateGoal_head_id {g : Goal Env} {id' : Nat}
    {f : Goal Env → Goal Env} (hf : ∀ g0, (f g0).data.id = g0.data.id) :
    ((if g.data.id == id' then f g else g) : Goal Env).data.id
      = g.data.id := by
  split
  · exact hf g
  · rfl

/-- Updating a goal of a different identity does not change a lookup,
    provided the update preserves identities. -/
theorem findGoal_updateGoal_other {gs : List (Goal Env)}
    {id' gid : Nat} {f : Goal Env → Goal Env} (hne : id' ≠ gid)
    (hf : ∀ g, (f g).data.id = g.data.id) :
    findGoal (updateGoal gs id' f) gid = findGoal gs gid := by
  induction gs with
  | nil => rfl
  | cons g rest ih =>
      simp only [updateGoal, List.map_cons, findGoal,
        updateGoal_head_id hf]
      by_cases hgd : g.data.id = gid
      · have hb : ((g.data.id == gid) = true) := by simpa using hgd
        have hcond : (g.data.id == id') = false :=
          beq_eq_false_iff_ne.mpr (fun hc => hne (hc ▸ hgd))
        have hterm : ((if g.data.id == id' then f g else g) : Goal Env)
            = g := if_neg (by simp [hcond])
        rw [if_pos hb, if_pos hb, hterm]
      · have hb : ¬ ((g.data.id == gid) = true) := by simpa using hgd
        rw [if_neg hb, if_neg hb]
        simp only [updateGoal] at ih
        exact ih

/-- Updating the goal a lookup returns rewrites exactly that goal in the
    next lookup, provided the update preserves identities. -/
theorem findGoal_updateGoal_self {gs : List (Goal Env)} {gid : Nat}
    {g : Goal Env} {f : Goal Env → Goal Env}
    (h : findGoal gs gid = some g)
    (hf : ∀ g0, (f g0).data.id = g0.data.id) :
    findGoal (updateGoal gs gid f) gid = some (f g) := by
  induction gs with
  | nil => simp [findGoal] at h
  | cons g0 rest ih =>
      simp only [findGoal] at h
      simp only [updateGoal, List.map_cons, findGoal,
        updateGoal_head_id hf]
      by_cases hgd : g0.data.id = gid
      · have hb : ((g0.data.id == gid) = true) := by simpa using hgd
        rw [if_pos hb] at h
        have hg : g0 = g := by injection h
        subst hg
        have hterm : ((if g0.data.id == gid then f g0 else g0) : Goal Env)
            = f g0 := if_pos (by simp [hb])
        rw [if_pos hb, hterm]
      · have hb : ¬ ((g0.data.id == gid) = true) := by simpa using hgd
        rw [if_neg hb] at h
        rw [if_neg hb]
        simp only [updateGoal] at ih
        exact ih h

/-- A fold of start updates over goals of other identities does not
    change a lookup. -/
theorem findGoal_foldl_start {l : List (Goal Env)} {gid : Nat}
    {now : Nat} :
    ∀ gs : List (Goal Env), (∀ g' ∈ l, g'.data.id ≠ gid) →
    findGoal (l.foldl
      (fun acc g' => updateGoal acc g'.data.id (Goal.start now)) gs) gid
      = findGoal gs gid := by
  induction l with
  | nil => intro gs _; rfl
  | cons g' rest ih =>
      intro gs hne
      simp only [List.foldl_cons]
      rw [ih _ (fun x hx => hne x (List.mem_cons_of_mem _ hx)),
        findGoal_updateGoal_other (hne g' (List.mem_cons_self _ _))
          (fun g0 => (rfl : (Goal.start now g0).data.id = g0.data.id))]

/-- C1: doAction clears the in-flight execution state unconditionally —
    whatever the outcome (completion, argument-check throw, or handler
    failure rethrown), currentAction and actionStartTime are null when the
    call returns; and the decision cycle with synchronization enabled
    skips entirely while an action is in flight (returning false with the
    state untouched and making no doAction call), so the in-flight state
    observed at the entry of every doAction call the cycle makes is
    empty. -/
theorem inflight_cleared_and_cycle_skips :
    (∀ (now : Nat) (a : ActionReq) (hr : ActResult) (s : ExecState),
       (doAction now a hr s).2.currentAction = none ∧
       (doAction now a hr s).2.actionStartTime = none) ∧
    (∀ (now cnt : Nat) (pos : Pos)
       (blockAt : Int → Int → Int → Option String) (reloc : Int × Int)
       (prop : Option JVal) (hr : ActResult) (st : SysState)
       (a0 : ActionReq), st.exec.currentAction = some a0 →
       executeLLMDecision now cnt pos blockAt reloc prop hr st
         = (false, st, [])) ∧
    (∀ (now cnt : Nat) (pos : Pos)
       (blockAt : Int → Int → Int → Option String) (reloc : Int × Int)
       (prop : Option JVal) (hr : ActResult) (st : SysState),
       ∀ pre ∈ (executeLLMDecision now cnt pos blockAt reloc prop hr
         st).2.2, pre = none) := by
  refine ⟨?_, ?_, ?_⟩
  · intro now a hr s
    cases hk : kindPrecheck a.action a.args <;> cases hr <;>
      simp [doAction, hk]
  · intro now cnt pos blockAt reloc prop hr st a0 h
    simp [executeLLMDecision, isActionInProgress, h, cfgActionSyncEnabled]
  · intro now cnt pos blockAt reloc prop hr st pre hpre
    by_cases h1 : cfgMaxAutoActions ≤ cnt
    · simp only [executeLLMDecision, if_pos h1] at hpre
      simp at hpre
    · by_cases h2 : (cfgActionSyncEnabled && isActionInProgress st.exec)
        = true
      · simp only [executeLLMDecision, if_neg h1, if_pos h2] at hpre
        simp at hpre
      · have hcur : st.exec.currentAction = none := by
          cases hc : st.exec.currentAction with
          | none => rfl
          | some a0 =>
              exact absurd (by simp [cfgActionSyncEnabled,
                isActionInProgress, hc]) h2
        simp only [executeLLMDecision, if_neg h1, if_neg h2] at hpre
        split at hpre
        · simp [hcur] at hpre
          exact hpre
        · split at hpre
          · simp at hpre
          · split at hpre
            · simp [hcur] at hpre
              exact hpre
            · simp at hpre

/-- Witness for inflight_cleared_and_cycle_skips: the skip branch at a
    concrete busy state, and the cleared state after a concrete call. -/
theorem inflight_cleared_and_cycle_skips_witness :
    executeLLMDecision 0 0 { x := 0, y := 0, z := 0 } noTreeWorld (0, 0)
      none ActResult.completed busySys = (false, busySys, []) ∧
    (doAction 0 eatReq ActResult.completed ExecState.init).2.currentAction
      = none :=
  ⟨inflight_cleared_and_cycle_skips.2.1 0 0 { x := 0, y := 0, z := 0 }
      noTreeWorld (0, 0) none ActResult.completed busySys eatReq rfl,
   (inflight_cleared_and_cycle_skips.1 0 eatReq ActResult.completed
      ExecState.init).1⟩

/-- With the stuck flag set and fewer than 3 recent mining entries, the
    override takes the tree branch when a tree is in range and the
    proactive relocation branch otherwise. -/
theorem override_result_no_mining {now : Nat} {pos : Pos}
    {blockAt : Int → Int → Int → Option String} {reloc : Int × Int}
    {s : IntelState} (hflag : s.isStuckFlag = true)
    (hmine : ((s.actionMemory.drop (s.actionMemory.length - 5)).filter
      (fun e => (e.action.action == "MINE_TREE"
        || e.action.action == "MINE_AT")
        && decide (now - e.timestamp < 60000))).length < 3) :
    (scanTreeBlocks pos blockAt = [] →
       getIntelligentOverride now pos blockAt reloc s
         = (some (relocGoto (pos.x + reloc.1) pos.y (pos.z + reloc.2)),
            { s with
              shouldOverride := true, isExploring := true,
              lastOverrideTime := now, isStuckFlag := false,
              consecutiveActions := resetCounts s.consecutiveActions })) ∧
    (∀ (t : Pos) (ts : List Pos), scanTreeBlocks pos blockAt = t :: ts →
       getIntelligentOverride now pos blockAt reloc s
         = (some { action := "MINE_TREE",
                   args := [("x", JVal.num t.x), ("y", JVal.num t.y),
                            ("z", JVal.num t.z)],
                   horizon_ms := some 10000 },
            { s with
              shouldOverride := true,
              lastOverrideTime := now, isStuckFlag := false,
              consecutiveActions := resetCounts s.consecutiveActions })) := by
  constructor
  · intro hscan
    simp only [getIntelligentOverride, hscan]
    rw [if_neg (by simp [cfgBehavioralOverrides, hflag]),
      if_neg (by omega)]
    simp [cfgProactiveActions]
  · intro t ts hscan
    simp only [getIntelligentOverride, hscan]
    rw [if_neg (by simp [cfgBehavioralOverrides, hflag]),
      if_neg (by omega)]

/-- C7 (amended): when the last three recorded signatures are three
    identical navigate-to (GOTO) signatures (threshold 3), the stuck check
    returns true and the override returns an Action and zeroes every
    consecutive count; the Action is a non-navigate-to MINE_TREE when a
    tree block lies within the proximity radius, but otherwise it is
    itself a navigate-to GOTO relocation (the failure-loop branch cannot
    fire, since at most two of the last five entries can be mining
    entries). -/
theorem stuck_goto_override_breaks_pattern :
    ∀ (s : IntelState) (pre : List MemEntry) (e1 e2 e3 : MemEntry),
      s.actionMemory = pre ++ [e1, e2, e3] →
      e1.action.action = "GOTO" → e2.action.action = "GOTO" →
      e3.action.action = "GOTO" →
      (∀ e ∈ s.actionMemory, e.key = actionKeyOf e.action) →
      (detectStuckBehavior s).1 = true ∧
      (∀ (now : Nat) (pos : Pos)
        (blockAt : Int → Int → Int → Option String) (reloc : Int × Int),
        ((getIntelligentOverride now pos blockAt reloc
          (detectStuckBehavior s).2).1.isSome = true) ∧
        (∀ kv ∈ (getIntelligentOverride now pos blockAt reloc
          (detectStuckBehavior s).2).2.consecutiveActions, kv.2 = 0) ∧
        (scanTreeBlocks pos blockAt = [] →
          Option.map ActionReq.action (getIntelligentOverride now pos
            blockAt reloc (detectStuckBehavior s).2).1 = some "GOTO") ∧
        (∀ (t : Pos) (ts : List Pos),
          scanTreeBlocks pos blockAt = t :: ts →
          Option.map ActionReq.action (getIntelligentOverride now pos
            blockAt reloc (detectStuckBehavior s).2).1
            = some "MINE_TREE")) := by
  intro s pre e1 e2 e3 hmem he1 he2 he3 hwf
  have hk1 : e1.key = "undefined_\x7b\x7d" :=
    (hwf e1 (by rw [hmem]; simp)).trans rfl
  have hk2 : e2.key = "undefined_\x7b\x7d" :=
    (hwf e2 (by rw [hmem]; simp)).trans rfl
  have hk3 : e3.key = "undefined_\x7b\x7d" :=
    (hwf e3 (by rw [hmem]; simp)).trans rfl
  have hdrop3 : s.actionMemory.drop
      (s.actionMemory.length - cfgStuckThreshold) = [e1, e2, e3] := by
    rw [hmem]
    have hlen : (pre ++ [e1, e2, e3]).length - cfgStuckThreshold
        = pre.length := by
      simp [cfgStuckThreshold]
    rw [hlen]
    exact List.drop_left _ _
  have hA : ¬ ((!cfgBehavioralOverrides) = true) := by decide
  have hB : ¬ ((s.actionMemory.drop (s.actionMemory.length
      - cfgStuckThreshold)).length < cfgStuckThreshold) := by
    rw [hdrop3]
    simp [cfgStuckThreshold]
  have hC : (([e1, e2, e3].map (fun e => e.key)).all
      (fun k => k == ([e1, e2, e3].map (fun e => e.key)).headD ""))
      = true := by
    simp [hk1, hk2, hk3]
  have hdet : detectStuckBehavior s
      = (true, { s with
          isStuckFlag := true,
          stuckCount := s.stuckCount + 1 }) := by
    simp only [detectStuckBehavior]
    rw [if_neg hA, if_neg hB, hdrop3, if_pos hC]
  refine ⟨by rw [hdet], ?_⟩
  intro now pos blockAt reloc
  rw [hdet]
  have hk5 : (pre ++ [e1, e2, e3]).length - 5 ≤ pre.length := by
    simp
  have hsplit : s.actionMemory.drop (s.actionMemory.length - 5)
      = pre.drop ((pre ++ [e1, e2, e3]).length - 5) ++ [e1, e2, e3] := by
    rw [hmem]
    exact List.drop_append_of_le_length hk5
  have hfilter3 : ((s.actionMemory.drop (s.actionMemory.length
      - 5)).filter (fun e => (e.action.action == "MINE_TREE"
        || e.action.action == "MINE_AT")
        && decide (now - e.timestamp < 60000))).length < 3 := by
    rw [hsplit, List.filter_append]
    have h3 : List.filter (fun e => (e.action.action == "MINE_TREE"
        || e.action.action == "MINE_AT")
        && decide (now - e.timestamp < 60000)) [e1, e2, e3] = [] := by
      simp [List.filter_cons, he1, he2, he3]
    rw [h3, List.append_nil]
    have hle := List.length_filter_le
      (fun e => (e.action.action == "MINE_TREE"
        || e.action.action == "MINE_AT")
        && decide (now - e.timestamp < 60000))
      (pre.drop ((pre ++ [e1, e2, e3]).length - 5))
    have hdl : (pre.drop ((pre ++ [e1, e2, e3]).length - 5)).length
        = pre.length - ((pre ++ [e1, e2, e3]).length - 5) := by
      rw [List.length_drop]
    have hlen : (pre ++ [e1, e2, e3]).length = pre.length + 3 := by
      simp
    omega
  obtain ⟨hnil, hcons⟩ := @override_result_no_mining now pos blockAt
    reloc { s with isStuckFlag := true, stuckCount := s.stuckCount + 1 }
    rfl hfilter3
  refine ⟨?_, ?_, ?_, ?_⟩
  · rcases hscan : scanTreeBlocks pos blockAt with _ | ⟨t, ts⟩
    · rw [hnil hscan]
      rfl
    · rw [hcons t ts hscan]
      rfl
  · intro kv hkv
    rcases hscan : scanTreeBlocks pos blockAt with _ | ⟨t, ts⟩
    · rw [hnil hscan] at hkv
      exact mem_resetCounts hkv
    · rw [hcons t ts hscan] at hkv
      exact mem_resetCounts hkv
  · intro hscan
    rw [hnil hscan]
    rfl
  · intro t ts hscan
    rw [hcons t ts hscan]
    rfl

/-- Witness for stuck_goto_override_breaks_pattern: three recorded GOTO
    signatures, a world with one tree in range, and the override taking
    the non-navigate-to MINE_TREE branch. -/
theorem stuck_goto_override_breaks_pattern_witness :
    (detectStuckBehavior threeGotoState).1 = true ∧
    Option.map ActionReq.action
      (getIntelligentOverride 10 { x := 0, y := 64, z := 0 } oneTreeWorld
        (12, -5) (detectStuckBehavior threeGotoState).2).1
      = some "MINE_TREE" :=
  have h := stuck_goto_override_breaks_pattern threeGotoState []
    (gotoMemEntry 0) (gotoMemEntry 1) (gotoMemEntry 2) rfl rfl rfl rfl
    (by
      intro e he
      simp [threeGotoState] at he
      rcases he with rfl | rfl | rfl <;> rfl)
  ⟨h.1, (h.2 10 { x := 0, y := 64, z := 0 } oneTreeWorld
      (12, -5)).2.2.2 { x := 1, y := 64, z := 0 } [] (by rfl)⟩

/-- C8: a goal's start timestamp is non-null exactly when the goal is
    active: this holds for a freshly constructed goal (inactive, null
    timestamp), and the start and stop transitions each (re)establish it
    (start sets both, stop clears both). -/
theorem goal_startTime_iff_active :
    (∀ (Env : Type) (id : Nat) (nm : String) (p : Int)
       (b : GoalBehavior Env),
       (mkGoal Env id nm p b).data.startTime.isSome
         = (mkGoal Env id nm p b).data.isActive) ∧
    (∀ (Env : Type) (now : Nat) (g : Goal Env),
       (Goal.start now g).data.startTime.isSome
         = (Goal.start now g).data.isActive) ∧
    (∀ (Env : Type) (g : Goal Env),
       (Goal.stop g).data.startTime.isSome = (Goal.stop g).data.isActive) :=
  ⟨fun _ _ _ _ _ => rfl, fun _ _ _ => rfl, fun _ _ => rfl⟩

/-- C9: the override layer returns no action whenever the stuck flag (the
    stored result of the stuck check, which getIntelligentOverride guards
    on at src/index.js 1443) is false: the state is returned unchanged
    with a null action. -/
theorem override_none_when_not_stuck
    (now : Nat) (pos : Pos) (blockAt : Int → Int → Int → Option String)
    (reloc : Int × Int) (s : IntelState) (h : s.isStuckFlag = false) :
    getIntelligentOverride now pos blockAt reloc s = (none, s) := by
  simp [getIntelligentOverride, h]

/-- Witness for override_none_when_not_stuck at a concrete non-stuck
    state. -/
theorem override_none_when_not_stuck_witness :
    IntelState.init.isStuckFlag = false ∧
    getIntelligentOverride 0 { x := 0, y := 0, z := 0 } noTreeWorld (0, 0)
      IntelState.init = (none, IntelState.init) :=
  ⟨rfl, override_none_when_not_stuck 0 { x := 0, y := 0, z := 0 }
    noTreeWorld (0, 0) IntelState.init rfl⟩

/-- C10: the schema accepts the object with action GOTO and empty args
    (it constrains only the kind enumeration, the optional horizon range
    and that args is an object), yet doAction throws on it because the
    GOTO handler requires numeric x, y, z in the parameter bag. -/
theorem schema_accepts_goto_without_coords :
    validateAction gotoEmptyArgs = true ∧
    (doAction 0 gotoEmptyReq ActResult.completed ExecState.init).1
      = ActResult.failed "GOTO requires x,y,z" := by
  exact ⟨rfl, rfl⟩

/-- C6 (failing input for the claimed signature comparison): recording a
    GOTO, an EAT and a MINE_AT — three actions with pairwise different
    kinds, hence pairwise different signatures in the spec's sense — makes
    detectStuckBehavior return true with threshold 3, because the key
    updateActionMemory computes (from the absent fields action.type and
    action.parameters) is the same constant string for every recorded
    action. -/
theorem stuck_detected_despite_distinct_signatures :
    (detectStuckBehavior memAfterThreeDistinct).1 = true ∧
    (specSignature gotoReq).1 ≠ (specSignature eatReq).1 ∧
    (specSignature eatReq).1 ≠ (specSignature mineAtReq).1 ∧
    (specSignature gotoReq).1 ≠ (specSignature mineAtReq).1 ∧
    actionKeyOf gotoReq = actionKeyOf eatReq ∧
    actionKeyOf eatReq = actionKeyOf mineAtReq := by
  refine ⟨rfl, ?_, ?_, ?_, rfl, rfl⟩ <;> decide

/-- updateGoal preserves the registry's identities when the update
    does. -/
theorem updateGoal_ids {gs : List (Goal Env)} {id : Nat}
    {f : Goal Env → Goal Env} (hf : ∀ g, (f g).data.id = g.data.id) :
    idsOf (updateGoal gs id f) = idsOf gs := by
  induction gs with
  | nil => rfl
  | cons g rest ih =>
      simp only [updateGoal, idsOf, List.map_cons] at ih ⊢
      rw [updateGoal_head_id hf, ih]

/-- The kept active ids of the removal pass come from the input active
    list. -/
theorem removeFinished_active_sub {now : Nat} {env : Env} :
    ∀ (act : List Nat) (gs : List (Goal Env)) (id : Nat),
      id ∈ (removeFinished now env gs act).2 → id ∈ act := by
  intro act
  induction act with
  | nil =>
      intro gs id h
      simp [removeFinished] at h
  | cons i rest ih =>
      intro gs id h
      simp only [removeFinished] at h
      split at h
      · rcases List.mem_cons.mp h with h | h
        · exact h ▸ List.mem_cons_self _ _
        · exact List.mem_cons_of_mem _ (ih gs id h)
      · exact List.mem_cons_of_mem _ (ih _ id h)

/-- The removal pass never lengthens the active list. -/
theorem removeFinished_length {now : Nat} {env : Env} :
    ∀ (act : List Nat) (gs : List (Goal Env)),
      (removeFinished now env gs act).2.length ≤ act.length := by
  intro act
  induction act with
  | nil => intro gs; simp [removeFinished]
  | cons i rest ih =>
      intro gs
      simp only [removeFinished]
      split
      · simpa using ih gs
      · exact Nat.le_succ_of_le (ih _)

/-- The removal pass preserves the registry's identities. -/
theorem removeFinished_ids {now : Nat} {env : Env} :
    ∀ (act : List Nat) (gs : List (Goal Env)),
      idsOf (removeFinished now env gs act).1 = idsOf gs := by
  intro act
  induction act with
  | nil => intro gs; rfl
  | cons i rest ih =>
      intro gs
      simp only [removeFinished]
      split
      · exact ih gs
      · rw [ih _, updateGoal_ids
          (fun g0 => (rfl : (Goal.stop g0).data.id = g0.data.id))]

/-- The removal pass does not affect lookups of ids outside the active
    list. -/
theorem removeFinished_find_other {now : Nat} {env : Env} {gid : Nat} :
    ∀ (act : List Nat) (gs : List (Goal Env)), gid ∉ act →
      findGoal (removeFinished now env gs act).1 gid = findGoal gs gid := by
  intro act
  induction act with
  | nil => intro gs _; rfl
  | cons i rest ih =>
      intro gs hnot
      have hne : i ≠ gid := fun h => hnot (h ▸ List.mem_cons_self _ _)
      have hrest : gid ∉ rest := fun h => hnot (List.mem_cons_of_mem _ h)
      simp only [removeFinished]
      split
      · exact ih gs hrest
      · rw [ih _ hrest, findGoal_updateGoal_other hne
          (fun g0 => (rfl : (Goal.stop g0).data.id = g0.data.id))]

/-- The removal pass of the tick stops and drops a goal whose timeout
    check fires, whatever its continuation check says. -/
theorem removeFinished_removes {now : Nat} {env : Env} {gid : Nat}
    {g : Goal Env} :
    ∀ (act : List Nat) (gs : List (Goal Env)), act.Nodup → gid ∈ act →
      findGoal gs gid = some g → g.data.hasTimedOut now = true →
      gid ∉ (removeFinished now env gs act).2 ∧
      findGoal (removeFinished now env gs act).1 gid
        = some (Goal.stop g) := by
  intro act
  induction act with
  | nil =>
      intro gs _ hmem
      exact absurd hmem (List.not_mem_nil _)
  | cons i rest ih =>
      intro gs hnd hmem hfind htime
      rcases List.nodup_cons.mp hnd with ⟨hhead, htail⟩
      by_cases hi : gid = i
      · subst hi
        have hkeep : ((match findGoal gs gid with
            | some g => !(g.data.hasTimedOut now)
                && g.beh.canContinue g.data env
            | none => true) : Bool) = false := by
          simp only [hfind]
          rw [htime]
          rfl
        simp only [removeFinished, hkeep]
        rw [if_neg (by simp)]
        constructor
        · intro hc
          exact hhead (removeFinished_active_sub rest _ gid hc)
        · rw [removeFinished_find_other rest _ hhead,
            findGoal_updateGoal_self hfind
              (fun g0 => (rfl : (Goal.stop g0).data.id = g0.data.id))]
      · have hrest : gid ∈ rest := by
          rcases List.mem_cons.mp hmem with h | h
          · exact absurd h hi
          · exact h
        simp only [removeFinished]
        split
        · have hres := ih gs htail hrest hfind htime
          refine ⟨?_, hres.2⟩
          intro hc
          rcases List.mem_cons.mp hc with h | h
          · exact hi h
          · exact hres.1 h
        · refine ih _ htail hrest ?_ htime
          rw [findGoal_updateGoal_other (fun h => hi h.symm)
            (fun g0 => (rfl : (Goal.stop g0).data.id = g0.data.id))]
          exact hfind

/-- A goal drawn from the activation pass's take of the sorted available
    list has an identity outside the active list it was filtered
    against. -/
theorem toStart_id_not_active {env : Env} {gs : List (Goal Env)}
    {act : List Nat} {n : Nat} :
    ∀ g' ∈ (sortByPriority env (gs.filter
      (fun g0 => !(act.contains g0.data.id) && g0.beh.canUse g0.data
        env))).take n, g'.data.id ∉ act := by
  intro g' hg' hc
  have hmem := List.mem_of_mem_take hg'
  have hf := List.mem_filter.mp (mem_sortByPriority.mp hmem)
  have h1 := (Bool.and_eq_true _ _).mp hf.2
  have h2 : act.contains g'.data.id = false := by
    cases hcc : act.contains g'.data.id with
    | false => rfl
    | true =>
        rw [hcc] at h1
        simp at h1
  simp at h2
  exact h2 hc

/-- The activation fold preserves the registry's identities. -/
theorem foldl_start_ids {now : Nat} :
    ∀ (l : List (Goal Env)) (gs : List (Goal Env)),
      idsOf (l.foldl
        (fun acc g' => updateGoal acc g'.data.id (Goal.start now)) gs)
        = idsOf gs := by
  intro l
  induction l with
  | nil => intro gs; rfl
  | cons g' rest ih =>
      intro gs
      simp only [List.foldl_cons]
      rw [ih, updateGoal_ids
        (fun g0 => (rfl : (Goal.start now g0).data.id = g0.data.id))]

/-- The tick pass preserves the registry's identities. -/
theorem tickGoals_ids {env : Env} :
    ∀ (act : List Nat) (gs : List (Goal Env)),
      idsOf (tickGoals env gs act).1 = idsOf gs := by
  intro act
  induction act with
  | nil => intro gs; rfl
  | cons id rest ih =>
      intro gs
      simp only [tickGoals]
      split
      · exact ih gs
      · split
        · exact updateGoal_ids (by intro g0; rfl)
        · rw [ih]
          exact updateGoal_ids (by intro g0; rfl)

/-- With unique registry identities, any member goal is what the lookup
    of its identity returns. -/
theorem mem_eq_findGoal_of_nodup {gs : List (Goal Env)}
    (hnd : (idsOf gs).Nodup) {g' : Goal Env} (hmem : g' ∈ gs) :
    findGoal gs g'.data.id = some g' := by
  induction gs with
  | nil => exact absurd hmem (List.not_mem_nil _)
  | cons g0 rest ih =>
      rcases List.nodup_cons.mp hnd with ⟨hhead, htail⟩
      rcases List.mem_cons.mp hmem with h | h
      · subst h
        simp [findGoal]
      · have hne : g0.data.id ≠ g'.data.id := by
          intro hc
          refine hhead ?_
          show g0.data.id ∈ List.map (fun g => g.data.id) rest
          rw [hc]
          exact List.mem_map_of_mem _ h
        simp only [findGoal]
        rw [if_neg (by simpa using hne)]
        exact ih htail h

/-- A goal ticked first whose tick errors makes the tick pass return that
    error. -/
theorem tickGoals_head_error {env : Env} {gs : List (Goal Env)}
    {gid : Nat} {g : Goal Env} {rest : List Nat} {d : GoalData}
    {e : String} (hfind : findGoal gs gid = some g)
    (htick : g.beh.tickRun g.data env = (d, some e)) :
    (tickGoals env gs (gid :: rest)).2 = some e := by
  simp only [tickGoals, hfind, htick]

/-- C3: a goal whose active time exceeds the persistence timeout is
    stopped and dropped by the removal pass of the scheduler tick, with no
    hypothesis on its continuation check (so even when canContinue would
    return true); it can only appear in the post-tick active set through a
    fresh activation, which requires its own activation check to pass on
    the stopped goal. -/
theorem goal_timeout_stopped :
    ∀ (Env : Type) (now : Nat) (env : Env) (s : Selector Env)
      (gid : Nat) (g : Goal Env) (t0 : Nat),
      cfgTickInterval ≤ now - s.lastTickTime →
      s.active.Nodup →
      (idsOf s.goals).Nodup →
      gid ∈ s.active →
      findGoal s.goals gid = some g →
      g.data.startTime = some t0 →
      cfgGoalPersistence < now - t0 →
      gid ∉ (removeFinished now env s.goals s.active).2 ∧
      findGoal (removeFinished now env s.goals s.active).1 gid
        = some (Goal.stop g) ∧
      (gid ∈ ((Selector.tick now env s).1).active →
        (Goal.stop g).beh.canUse (Goal.stop g).data env = true) := by
  intro Env now env s gid g t0 hInt hndAct hndIds hmem hfind hst htime
  have htimed : g.data.hasTimedOut now = true := by
    simp only [GoalData.hasTimedOut, hst]
    simpa using htime
  obtain ⟨hnotin, hfound⟩ :=
    removeFinished_removes s.active s.goals hndAct hmem hfind htimed
  refine ⟨hnotin, hfound, ?_⟩
  intro hmem2
  have hng : ¬ (now - s.lastTickTime < cfgTickInterval) := by omega
  simp only [Selector.tick, if_neg hng] at hmem2
  rcases List.mem_append.mp hmem2 with h | h
  · exact absurd h hnotin
  · obtain ⟨g', hg', hgid⟩ := List.mem_map.mp h
    have hmemT := List.mem_of_mem_take hg'
    have hfil := List.mem_filter.mp (mem_sortByPriority.mp hmemT)
    have hids1 : (idsOf (removeFinished now env s.goals
        s.active).1).Nodup := by
      rw [@removeFinished_ids Env now env s.active s.goals]
      exact hndIds
    have hfg := mem_eq_findGoal_of_nodup hids1 hfil.1
    rw [hgid, hfound] at hfg
    have hg'eq : g' = Goal.stop g := by
      injection hfg with hfg
      exact hfg.symm
    have hcanUse := ((Bool.and_eq_true _ _).mp hfil.2).2
    rw [hg'eq] at hcanUse
    exact hcanUse

/-- Witness for goal_timeout_stopped: a goal active since time 0, ticked
    at time 40000 with its continuation check returning true, is stopped
    and removed. -/
theorem goal_timeout_stopped_witness :
    (0 ∉ (removeFinished 40000 () longRunningSelector.goals
      longRunningSelector.active).2) ∧
    findGoal (removeFinished 40000 () longRunningSelector.goals
      longRunningSelector.active).1 0 = some (Goal.stop persistentGoal) :=
  ⟨(goal_timeout_stopped Unit 40000 () longRunningSelector 0
      persistentGoal 0 (by decide) (by decide) (by decide) (by decide)
      rfl rfl (by decide)).1,
   (goal_timeout_stopped Unit 40000 () longRunningSelector 0
      persistentGoal 0 (by decide) (by decide) (by decide) (by decide)
      rfl rfl (by decide)).2.1⟩

/-- One scheduler tick preserves the active-set invariant. -/
theorem tick_preserves_inv {now : Nat} {env : Env} {s : Selector Env}
    (hinv : SelectorInv s) : SelectorInv (Selector.tick now env s).1 := by
  by_cases hng : now - s.lastTickTime < cfgTickInterval
  · simp only [Selector.tick, if_pos hng]
    exact hinv
  · simp only [Selector.tick, if_neg hng]
    constructor
    · set rf := removeFinished now env s.goals s.active with hrf
      set X := sortByPriority env (rf.1.filter
        (fun g => !(rf.2.contains g.data.id)
          && g.beh.canUse g.data env)) with hX
      simp only [List.length_append, List.length_map]
      have h1 : rf.2.length ≤ cfgMaxActiveGoals :=
        le_trans (@removeFinished_length Env now env s.active s.goals)
          hinv.1
      have h2 : ((X.take (cfgMaxActiveGoals - rf.2.length)).length)
          ≤ cfgMaxActiveGoals - rf.2.length :=
        List.length_take_le _ _
      omega
    · intro id hid
      rw [tickGoals_ids, foldl_start_ids,
        @removeFinished_ids Env now env s.active s.goals]
      rcases List.mem_append.mp hid with h | h
      · exact hinv.2 id (removeFinished_active_sub _ _ _ h)
      · obtain ⟨g', hg', hgid⟩ := List.mem_map.mp h
        have hmemT := List.mem_of_mem_take hg'
        have hfil := List.mem_filter.mp (mem_sortByPriority.mp hmemT)
        rw [← hgid,
          ← @removeFinished_ids Env now env s.active s.goals]
        exact List.mem_map_of_mem _ hfil.1

/-- C2: starting from a freshly constructed selector with any registered
    goals, after any sequence of scheduler ticks the active set is at most
    maxActiveGoals and every active goal is registered. -/
theorem scheduler_active_bounded :
    ∀ (Env : Type) (items : List (String × Int × GoalBehavior Env))
      (inputs : List (Nat × Env)),
      SelectorInv (applyTicks inputs (mkSelector items)) := by
  intro Env items inputs
  have hbase : SelectorInv (mkSelector items) := by
    refine ⟨?_, ?_⟩
    · show ([] : List Nat).length ≤ cfgMaxActiveGoals
      simp [cfgMaxActiveGoals]
    · intro id hid
      exact absurd hid (List.not_mem_nil _)
  suffices h : ∀ (l : List (Nat × Env)) (s : Selector Env),
      SelectorInv s → SelectorInv (applyTicks l s) from
    h inputs _ hbase
  intro l
  induction l with
  | nil => intro s hs; exact hs
  | cons p rest ih =>
      intro s hs
      exact ih _ (tick_preserves_inv hs)

/-- C4 (amended): recording a signature preserves the exactly-one-nonzero
    invariant — after every updateActionMemory the recorded signature's
    consecutive count is the unique non-zero one (keys of the count map
    are unique, as properties of a JavaScript object are); but every
    override branch that returns an Action zeroes ALL counts, so
    immediately after the override path no signature has a non-zero count
    until the next record. -/
theorem record_exactly_one_nonzero_and_override_zeroes :
    (∀ (now : Nat) (a : ActionReq) (s : IntelState),
       (s.consecutiveActions.map Prod.fst).Nodup →
       nonzeroKeys (updateActionMemory now a s).consecutiveActions
         = [actionKeyOf a]) ∧
    (∀ (now : Nat) (pos : Pos)
       (blockAt : Int → Int → Int → Option String) (reloc : Int × Int)
       (s : IntelState) (a : ActionReq) (s' : IntelState),
       getIntelligentOverride now pos blockAt reloc s = (some a, s') →
       ∀ kv ∈ s'.consecutiveActions, kv.2 = 0) := by
  constructor
  · intro now a s hnd
    simp only [updateActionMemory, nonzeroKeys]
    rw [@filter_setCount_zeroed s.consecutiveActions (actionKeyOf a)
      (getCount s.consecutiveActions (actionKeyOf a) + 1)
      (Nat.succ_ne_zero _) hnd]
    rfl
  · intro now pos blockAt reloc s a s' h kv hkv
    simp only [getIntelligentOverride] at h
    split at h
    · simp at h
    · split at h
      · injection h with h1 h2
        subst h2
        exact mem_resetCounts hkv
      · split at h
        · injection h with h1 h2
          subst h2
          exact mem_resetCounts hkv
        · split at h
          · injection h with h1 h2
            subst h2
            exact mem_resetCounts hkv
          · simp at h

/-- Witness for record_exactly_one_nonzero_and_override_zeroes: a record
    into the initial (unique-keyed) map, and the override fired on the
    concrete stuck state. -/
theorem record_exactly_one_nonzero_witness :
    nonzeroKeys
      (updateActionMemory 0 eatReq IntelState.init).consecutiveActions
      = [actionKeyOf eatReq] ∧
    ∀ kv ∈ memAfterOverride.consecutiveActions, kv.2 = 0 :=
  ⟨record_exactly_one_nonzero_and_override_zeroes.1 0 eatReq
      IntelState.init (by simp [IntelState.init]),
   record_exactly_one_nonzero_and_override_zeroes.2 1000
      { x := 0, y := 0, z := 0 } noTreeWorld (7, 9) memAfterThreeMines
      (relocGoto 7 0 9) memAfterOverride (by rfl)⟩

/-- C5 (counterexample): a registered, active goal whose tick throws
    makes the scheduler's tick itself propagate the exception —
    GoalSelector.tick has no catch around the forEach over goal ticks, so
    the thrown error escapes the scheduler's tick call. -/
theorem scheduler_propagates_goal_tick_error :
    (Selector.tick 200 () throwingSelector).2 = some "boom" := by
  rfl

/-- C5 (amended): an exception thrown synchronously by a goal's tick is
    not caught by GoalSelector.tick and propagates out of the scheduler's
    tick call (here: a single active goal that survives the removal pass
    and whose tick throws); only MineTreeGoal.tick internally catches
    failures of its own mining step — its tick never propagates an error,
    and a mining failure increments the goal's failure count and stops
    the goal. -/
theorem goal_tick_error_propagation :
    (∀ (Env : Type) (now : Nat) (env : Env) (s : Selector Env)
       (gid : Nat) (g : Goal Env) (d : GoalData) (e : String),
       cfgTickInterval ≤ now - s.lastTickTime →
       s.active = [gid] →
       findGoal s.goals gid = some g →
       g.data.hasTimedOut now = false →
       g.beh.canContinue g.data env = true →
       g.beh.tickRun g.data env = (d, some e) →
       (Selector.tick now env s).2 = some e) ∧
    (∀ (now : Nat) (dist : Int) (res : ActResult) (d : MineTreeData),
       (mineTreeTick now dist res d).2 = none) ∧
    (∀ (now : Nat) (dist : Int) (msg : String) (d : MineTreeData)
       (p : Pos), d.targetTree = some p → dist ≤ 4 →
       (mineTreeTick now dist (ActResult.failed msg) d).1.goal.isActive
         = false ∧
       (mineTreeTick now dist (ActResult.failed msg) d).1.failureCount
         = d.failureCount + 1) := by
  refine ⟨?_, ?_, ?_⟩
  · intro Env now env s gid g d e hInt hact hfind htime hcont htick
    have hng : ¬ (now - s.lastTickTime < cfgTickInterval) := by omega
    have hkeep : (!(g.data.hasTimedOut now)
        && g.beh.canContinue g.data env) = true := by
      rw [htime, hcont]
      rfl
    have hrem : removeFinished now env s.goals s.active
        = (s.goals, [gid]) := by
      rw [hact]
      simp [removeFinished, hfind, hkeep]
    simp only [Selector.tick, if_neg hng, hrem, List.singleton_append]
    refine tickGoals_head_error ?_ htick
    rw [findGoal_foldl_start _ (fun g' hg' => by
      have h := toStart_id_not_active g' hg'
      simpa using h)]
    exact hfind
  · intro now dist res d
    simp only [mineTreeTick]
    split
    · rfl
    · split
      · cases res <;> rfl
      · split <;> split <;> rfl
  · intro now dist msg d p htt hdist
    simp only [mineTreeTick, htt]
    rw [if_pos hdist]
    refine ⟨rfl, ?_⟩
    split <;> rfl

/-- Witness for goal_tick_error_propagation: the concrete throwing goal
    and a concrete failing MineTreeGoal mining step. -/
theorem goal_tick_error_propagation_witness :
    (Selector.tick 300 () throwingSelector).2 = some "boom" ∧
    (mineTreeTick 5 3 (ActResult.failed "dig error") sampleMineData).2
      = none ∧
    (mineTreeTick 5 3 (ActResult.failed "dig error")
      sampleMineData).1.goal.isActive = false :=
  ⟨goal_tick_error_propagation.1 Unit 300 () throwingSelector 0
      throwingGoal throwingGoal.data "boom" (by decide) rfl rfl
      (by decide) rfl rfl,
   goal_tick_error_propagation.2.1 5 3 (ActResult.failed "dig error")
      sampleMineData,
   (goal_tick_error_propagation.2.2 5 3 "dig error" sampleMineData
      { x := 1, y := 64, z := 0 } rfl (by decide)).1⟩

/-- C7 (counterexample): after three identical GOTO signatures are
    recorded and stuck detection fires (threshold 3), in a world with no
    nearby tree the override returns a GOTO — a navigate-to action — from
    the relocation branch, not a non-navigate-to action. -/
theorem override_returns_goto_when_stuck_on_goto :
    ((getIntelligentOverride 100 { x := 0, y := 64, z := 0 } noTreeWorld
        (12, -5) memAfterThreeGotos).1).map ActionReq.action
      = some "GOTO" := by
  rfl

/-- C4 (counterexample): starting from three recorded actions (one
    signature with consecutive count 3) with the stuck flag set, the
    override's failure-loop branch returns an action and resets every
    consecutive count to zero — immediately afterwards no signature has a
    non-zero count, so the exactly-one-non-zero invariant does not survive
    the override path. -/
theorem override_zeroes_all_counts :
    (memAfterThreeMines.actionMemory.length = 3 ∧
     nonzeroKeys memAfterThreeMines.consecutiveActions
       = [actionKeyOf mineTreeReq]) ∧
    (let r := getIntelligentOverride 1000 { x := 0, y := 0, z := 0 }
        noTreeWorld (7, 9) memAfterThreeMines
     r.1.isSome = true ∧ nonzeroKeys r.2.consecutiveActions = []) := by
  exact ⟨⟨rfl, rfl⟩, rfl, rfl⟩

end MCAgent
